import Mathlib

/-!
# Perspective warp onto an ArUco-marked quadrilateral: embedding of `main.cpp`

The program captures camera frames, detects ArUco markers, and when the four
markers 0..3 are seen, warps the next frame of a video file onto the
quadrilateral they span (NVIDIA VPI on one CUDA stream) and adds the result
to the camera frame.

Embedding conventions.
* A finite `float` value is a rational number, so `cv::Point2f` carries two
  coordinates in `ℚ`; `int` values are `Int`.  Image coordinates stay far
  inside the range of `int`, so the conversion `float → int` is the
  truncation of the value and `int → float` is exact.
* An out-of-bounds read of a `std::vector` has no defined result; the
  functions that index return `Option`, with `none` for such a read.
* Calls into OpenCV, VPI and the operating system are recorded as events of
  a trace, with the values they returned taken from the run's inputs.
-/

namespace PerspectiveWarp

/-! ## Return codes and points -/

/-- Source: `#define RET_OK 0`. -/
def RET_OK : Int := 0

/-- Source: `#define RET_ERR -1`. -/
def RET_ERR : Int := -1

/-- Success code of the VPI status enumeration (`VPI_SUCCESS`). -/
def VPI_SUCCESS : Nat := 0

/-- The type `cv::Point2f`: two `float` coordinates. -/
structure Point2f where
  x : ℚ
  y : ℚ
deriving DecidableEq

/-- The type `cv::Point`: two `int` coordinates. -/
structure Point where
  x : Int
  y : Int
deriving DecidableEq

/-- Conversion `float → int` of C++: the fractional part is discarded
(rounding toward zero). -/
def floatToInt (v : ℚ) : Int := Int.tdiv v.num v.den

/-- The call `cv::Point(a, b)` with `float` arguments: each argument is
converted to `int`. -/
def Point.ofFloats (a b : ℚ) : Point := ⟨floatToInt a, floatToInt b⟩

/-- Conversion `cv::Point → cv::Point2f` (assignment `ptDst[id] = cv::Point(..)`). -/
def Point.toPoint2f (p : Point) : Point2f := ⟨(p.x : ℚ), (p.y : ℚ)⟩

/-- The function `cvRound`: nearest integer, ties to the even one. -/
def cvRound (v : ℚ) : Int :=
  let f := v.num / (v.den : Int)
  let r := v.num % (v.den : Int)
  if 2 * r < (v.den : Int) then f
  else if (v.den : Int) < 2 * r then f + 1
  else if f % 2 = 0 then f else f + 1

/-- Conversion `cv::Point2f → cv::Point` (assignment `pt[id] = ptDst[id]`),
which rounds each coordinate with `cvRound`. -/
def Point2f.toPoint (p : Point2f) : Point := ⟨cvRound p.x, cvRound p.y⟩

/-! ## `getOutPoints` -/

/-- Inner loop of `getOutPoints`:
`for (i = 0; i < 4; i++) if (ids[i] == id) { idx = i; break; }` with `idx`
starting at `-1`.  The first argument counts the remaining iterations, the
second is `i`. -/
def findIdx (ids : List Int) (id : Int) : Nat → Nat → Option Int
  | 0, _ => some (-1)
  | n + 1, i =>
    match ids[i]? with
    | none => none
    | some v => if v = id then some (i : Int) else findIdx ids id n (i + 1)

/-- Outer loop of `getOutPoints`: `for (id = 0; id < 4; id++)`.  The first
argument counts the remaining iterations, the second is `id`. -/
def outPointsLoop (corners : List (List Point2f)) (ids : List Int) :
    Nat → Nat → List Point2f → Option (Int × List Point2f)
  | 0, _, ptDst => some (RET_OK, ptDst)
  | n + 1, id, ptDst =>
    match findIdx ids (id : Int) 4 0 with
    | none => none
    | some idx =>
      if idx < 0 then some (RET_ERR, ptDst)
      else
        match corners[idx.toNat]? with
        | none => none
        | some cs =>
          match cs[id]? with
          | none => none
          | some c =>
            outPointsLoop corners ids n (id + 1)
              (ptDst.set id (Point.ofFloats c.x c.y).toPoint2f)

/-- Source: `int getOutPoints(corners, ids, ptDst)`.  Returns the return
code and the contents of `ptDst` afterwards. -/
def getOutPoints (corners : List (List Point2f)) (ids : List Int)
    (ptDst : List Point2f) : Option (Int × List Point2f) :=
  outPointsLoop corners ids 4 0 ptDst

/-! ## The run of `main` as a trace of calls -/

/-- The calls wrapped in `CHECK_STATUS`, in the order of their first
appearance in `main`; the two wrappers of `ToVPIImage` are named after the
image they serve (`imgVid`, `imgDisp`). -/
inductive GpuCall
  | contextCreate
  | contextSetCurrent
  | streamCreate
  | imageCreate (width height : Int)
  | createPerspectiveWarp
  | createWrapperVid
  | setWrappedVid
  | createWrapperDisp
  | setWrappedDisp
  | submitConvertVid
  | submitRescale
  | submitPerspectiveWarp
  | submitConvertDisp
  | streamSync
  | imageLock
  | imageDataExport
  | imageUnlock
deriving DecidableEq

/-- One observable call of a run, with the value it returned where the
program looks at it. -/
inductive Event
  | releaseArgs
  | openCamera (opened : Bool)
  | openVideo (opened : Bool)
  | vpi (call : GpuCall) (status : Nat)
  | signal (ok : Bool)
  | capRead (blank : Bool)
  | detectMarkers
  | copyTo
  | drawDetectedMarkers
  | getOutPoints (ret : Int)
  | fillConvexPoly (pt : List Point)
  | getPerspectiveTransform (src dst : List Point2f)
  | invidRead (ok : Bool)
  | invidRelease
  | add
  | imshow
  | waitKey (delay : Int) (key : Int)
  | contextDestroy
  | capRelease
deriving DecidableEq

/-- What one pass of the `while` loop receives from outside: the value of
`LoopFlag` when the condition is tested, the captured frame (blank or with
the detector's `ids` and `corners`), the result of `invid.read`, the
statuses of the checked calls (numbered from 0 within the pass) and the
value returned by `cv::waitKey`. -/
structure FrameInput where
  loopFlag : Bool
  blank : Bool
  ids : List Int
  corners : List (List Point2f)
  vidRead : Bool
  status : Nat → Nat
  key : Int

/-- What a run receives from outside.  `capWidth` and `capHeight` are the
values read back from the camera in `openCamera`; `vidWidth` and
`vidHeight` are read from the video file. -/
structure Env where
  argsErr : Bool
  cameraOpened : Bool
  capWidth : Int
  capHeight : Int
  videoOpened : Bool
  vidWidth : Int
  vidHeight : Int
  setupStatus : Nat → Nat
  signalOk : Bool
  frames : List FrameInput

/-- The two wrapper handles `imgVid` and `imgDisp`; `true` once non-null. -/
structure Wrappers where
  imgVid : Bool
  imgDisp : Bool
deriving DecidableEq

/-- How one pass of the loop body ends: it reaches the end of the body or a
`continue` (with the wrapper handles as they are then), a `break`, a thrown
exception, or a read outside a vector. -/
inductive Flow
  | next (w : Wrappers)
  | brk
  | thrown
  | undefined
deriving DecidableEq

/-- How the `try` block ends: the loop was left, an exception was thrown,
`main` returned from inside (failure of `signal`), the supplied frames were
used up with the loop still running, or a read outside a vector. -/
inductive BodyEnd
  | done
  | thrown
  | returned
  | pending
  | undefined
deriving DecidableEq

/-- Result of a run: the calls made and the value returned by `main`
(`none` when the run did not reach a `return`: see `BodyEnd.pending` and
`BodyEnd.undefined`). -/
structure Outcome where
  trace : List Event
  ret : Option Int
deriving DecidableEq

/-- Source: macro `CHECK_STATUS` over consecutive calls.  Each call is made
in turn; the first status other than `VPI_SUCCESS` throws, so the calls
after it are not made.  The `Bool` is `true` when no call threw. -/
def checkStatus (status : Nat → Nat) : Nat → List GpuCall → List Event × Bool
  | _, [] => ([], true)
  | k, c :: rest =>
    if status k = VPI_SUCCESS then
      (Event.vpi c (status k) :: (checkStatus status (k + 1) rest).1,
        (checkStatus status (k + 1) rest).2)
    else ([Event.vpi c (status k)], false)

/-- Source: array `ptSrc` in `main`. -/
def ptSrc (capWidth capHeight : Int) : List Point2f :=
  [⟨0, 0⟩, ⟨(capWidth : ℚ), 0⟩, ⟨(capWidth : ℚ), (capHeight : ℚ)⟩,
    ⟨0, (capHeight : ℚ)⟩]

/-- The checked calls of a composite pass, from the two `ToVPIImage` calls
to `vpiImageUnlock`.  `ToVPIImage` creates the wrapper when the handle is
null and rebinds it otherwise. -/
def gpuStage (w : Wrappers) : List GpuCall :=
  [ (if w.imgVid then GpuCall.setWrappedVid else GpuCall.createWrapperVid),
    (if w.imgDisp then GpuCall.setWrappedDisp else GpuCall.createWrapperDisp),
    GpuCall.submitConvertVid,
    GpuCall.submitRescale,
    GpuCall.submitPerspectiveWarp,
    GpuCall.submitConvertDisp,
    GpuCall.streamSync,
    GpuCall.imageLock,
    GpuCall.imageDataExport,
    GpuCall.imageUnlock ]

/-- Contents of `ptDst` at the call of `getOutPoints` in `main`: the array
`cv::Point2f ptDst[4]` is default-constructed, every point being (0, 0). -/
def ptDstInit : List Point2f := List.replicate 4 ⟨0, 0⟩

/-- Source: end of the loop body, `if (cv::waitKey(5) >= 0) break;`. -/
def keyPoll (key : Int) (w : Wrappers) : List Event × Flow :=
  ([Event.waitKey 5 key], if 0 ≤ key then Flow.brk else Flow.next w)

/-- Source: loop body of `main` from `detectMarkers` on, for a frame that
is not blank. -/
def processFrame (capWidth capHeight : Int) (w : Wrappers) (f : FrameInput) :
    List Event × Flow :=
  let pre : List Event :=
    [Event.detectMarkers, Event.copyTo] ++
      (if 0 < f.ids.length ∧ f.ids.length < 4 then [Event.drawDetectedMarkers]
       else [])
  if f.ids.length = 4 then
    match getOutPoints f.corners f.ids ptDstInit with
    | none => (pre, Flow.undefined)
    | some (r, ptDst) =>
      if r ≠ RET_OK then
        (pre ++ [Event.getOutPoints r, Event.imshow], Flow.next w)
      else
        let head : List Event :=
          pre ++ [Event.getOutPoints r,
            Event.fillConvexPoly (ptDst.map Point2f.toPoint),
            Event.getPerspectiveTransform (ptSrc capWidth capHeight) ptDst,
            Event.invidRead f.vidRead]
        if f.vidRead then
          let g := checkStatus f.status 0 (gpuStage w)
          if g.2 then
            (head ++ g.1 ++ [Event.add, Event.imshow] ++ (keyPoll f.key ⟨true, true⟩).1,
              (keyPoll f.key ⟨true, true⟩).2)
          else (head ++ g.1, Flow.thrown)
        else (head ++ [Event.invidRelease], Flow.brk)
  else
    (pre ++ [Event.imshow] ++ (keyPoll f.key w).1, (keyPoll f.key w).2)

/-- Source: `while (LoopFlag) { ... }` in `main`, one list element per
pass. -/
def mainLoop (capWidth capHeight : Int) :
    Wrappers → List FrameInput → List Event × BodyEnd
  | _, [] => ([], BodyEnd.pending)
  | w, f :: rest =>
    if f.loopFlag then
      if f.blank then ([Event.capRead true], BodyEnd.done)
      else
        match processFrame capWidth capHeight w f with
        | (t, Flow.next w') =>
          (Event.capRead false :: t ++ (mainLoop capWidth capHeight w' rest).1,
            (mainLoop capWidth capHeight w' rest).2)
        | (t, Flow.brk) => (Event.capRead false :: t, BodyEnd.done)
        | (t, Flow.thrown) => (Event.capRead false :: t, BodyEnd.thrown)
        | (t, Flow.undefined) => (Event.capRead false :: t, BodyEnd.undefined)
    else ([], BodyEnd.done)

/-- The checked calls made before the loop. -/
def setupStage (env : Env) : List GpuCall :=
  [ GpuCall.contextCreate,
    GpuCall.contextSetCurrent,
    GpuCall.streamCreate,
    GpuCall.imageCreate env.capWidth env.capHeight,
    GpuCall.imageCreate env.capWidth env.capHeight,
    GpuCall.imageCreate env.vidWidth env.vidHeight,
    GpuCall.createPerspectiveWarp ]

/-- Source: the `try` block of `main`. -/
def tryBody (env : Env) : List Event × BodyEnd :=
  if env.cameraOpened then
    if env.videoOpened then
      let g := checkStatus env.setupStatus 0 (setupStage env)
      let t : List Event := [Event.openCamera true, Event.openVideo true] ++ g.1
      if g.2 then
        if env.signalOk then
          (t ++ [Event.signal true] ++
              (mainLoop env.capWidth env.capHeight ⟨false, false⟩ env.frames).1,
            (mainLoop env.capWidth env.capHeight ⟨false, false⟩ env.frames).2)
        else (t ++ [Event.signal false], BodyEnd.returned)
      else (t, BodyEnd.thrown)
    else ([Event.openCamera true, Event.openVideo false], BodyEnd.thrown)
  else ([Event.openCamera false], BodyEnd.thrown)

/-- Source: the statements after the `catch` block: `vpiContextDestroy`,
`cap.release`, `releaseArgs`. -/
def cleanup : List Event :=
  [Event.contextDestroy, Event.capRelease, Event.releaseArgs]

/-- Source: `int main(int argc, char *argv[])`. -/
def main (env : Env) : Outcome :=
  if env.argsErr then ⟨[Event.releaseArgs], some RET_ERR⟩
  else
    match tryBody env with
    | (t, BodyEnd.done) => ⟨t ++ cleanup, some RET_OK⟩
    | (t, BodyEnd.thrown) => ⟨t ++ cleanup, some RET_ERR⟩
    | (t, BodyEnd.returned) => ⟨t, some RET_ERR⟩
    | (t, BodyEnd.pending) => ⟨t, none⟩
    | (t, BodyEnd.undefined) => ⟨t, none⟩

/-! ## Vocabulary of the statements -/

/-- Corner number `c` of the first marker of the detection whose identity is
`k` (specification side; `none` when there is no such marker or corner). -/
def markerCorner (corners : List (List Point2f)) (ids : List Int) (k : Int)
    (c : Nat) : Option Point2f :=
  match corners[ids.indexOf k]? with
  | none => none
  | some cs => cs[c]?

/-- A detection as `detectMarkers` delivers it: one corner list per
identity, each of four points. -/
def WellFormed (corners : List (List Point2f)) (ids : List Int) : Prop :=
  corners.length = ids.length ∧ ∀ cs ∈ corners, cs.length = 4


/-- The steps of the composite path: background fill, transform
derivation, warp submission, add. -/
def isCompositeStep : Event → Bool
  | Event.fillConvexPoly _ => true
  | Event.getPerspectiveTransform _ _ => true
  | Event.vpi GpuCall.submitPerspectiveWarp _ => true
  | Event.add => true
  | _ => false

/-- Example detection: markers 0..3 at the corners of a 100 by 100 square,
each marker 10 wide, all coordinates whole numbers. -/
def squareCorners : List (List Point2f) :=
  [ [⟨100, 100⟩, ⟨110, 100⟩, ⟨110, 110⟩, ⟨100, 110⟩],
    [⟨190, 100⟩, ⟨200, 100⟩, ⟨200, 110⟩, ⟨190, 110⟩],
    [⟨190, 190⟩, ⟨200, 190⟩, ⟨200, 200⟩, ⟨190, 200⟩],
    [⟨100, 190⟩, ⟨110, 190⟩, ⟨110, 200⟩, ⟨100, 200⟩] ]

/-- Example detection: four markers whose four corners all lie at one
point with fractional coordinates. -/
def fractionalCorners : List (List Point2f) :=
  [ List.replicate 4 ⟨mkRat 21 2, mkRat 21 2⟩,
    List.replicate 4 ⟨mkRat 41 2, mkRat 21 2⟩,
    List.replicate 4 ⟨mkRat 41 2, mkRat 41 2⟩,
    List.replicate 4 ⟨mkRat 21 2, mkRat 41 2⟩ ]

/-- A checked call that reported a status other than `VPI_SUCCESS`. -/
def isFailure : Event → Bool
  | Event.vpi _ s => decide (s ≠ VPI_SUCCESS)
  | _ => false

/-- A failed read of the secondary video. -/
def isVidEnd : Event → Bool
  | Event.invidRead ok => !ok
  | _ => false

/-- A stretch of a run in which no checked call fails, the secondary video
does not end and the context is not destroyed. -/
def Quiet (t : List Event) : Prop :=
  ∀ e ∈ t, isFailure e = false ∧ isVidEnd e = false ∧ e ≠ Event.contextDestroy

/-- The calls of a pass in which the secondary video ends, up to the
failed read. -/
def vidEndHead (pt : List Point) (src dst : List Point2f) : List Event :=
  [Event.capRead false, Event.detectMarkers, Event.copyTo,
    Event.getOutPoints RET_OK, Event.fillConvexPoly pt,
    Event.getPerspectiveTransform src dst]

/-- The three shapes of the trace of a stretch of a run: quiet throughout;
quiet up to a failing checked call, its last call; quiet up to a pass in
which the secondary video ends. -/
def Shape (t : List Event) (thrown done : Prop) : Prop :=
  Quiet t ∨
  (∃ A c s, t = A ++ [Event.vpi c s] ∧ Quiet A ∧ s ≠ VPI_SUCCESS ∧ thrown) ∨
  (∃ A pt src dst, t = (A ++ vidEndHead pt src dst) ++
      [Event.invidRead false, Event.invidRelease] ∧ Quiet A ∧ done)

/-- Example pass: the four markers of the square detection are seen, the
video delivers a frame, every checked call succeeds, no key is pressed. -/
def squareFrame : FrameInput :=
  ⟨true, false, [0, 1, 2, 3], squareCorners, true, fun _ => VPI_SUCCESS, -1⟩

/-- Example pass: as `squareFrame`, but the fifth checked call of the pass
(the warp submission) reports status 1. -/
def warpFailFrame : FrameInput :=
  ⟨true, false, [0, 1, 2, 3], squareCorners, true,
    fun k => if k = 4 then 1 else VPI_SUCCESS, -1⟩

/-- Example pass: as `squareFrame`, but the video has no frame left. -/
def vidEndFrame : FrameInput :=
  ⟨true, false, [0, 1, 2, 3], squareCorners, false, fun _ => VPI_SUCCESS, -1⟩

/-- Example pass: four markers detected, identity 0 twice and identity 3
missing. -/
def duplicateFrame : FrameInput :=
  ⟨true, false, [0, 0, 1, 2], squareCorners, true, fun _ => VPI_SUCCESS, -1⟩

/-- Example pass: no marker detected and a key pressed. -/
def keyFrame : FrameInput :=
  ⟨true, false, [], [], true, fun _ => VPI_SUCCESS, 113⟩

/-- Example run: camera of 640 by 480, video of 1920 by 1080, set-up
without failure, then the given passes. -/
def exampleEnv (frames : List FrameInput) : Env :=
  ⟨false, true, 640, 480, true, 1920, 1080, fun _ => VPI_SUCCESS, true, frames⟩

/-- The calls that issue work on the stream, synchronize it, or read the
result back (`vpiImageLock`, the export, `vpiImageUnlock`). -/
def isStreamOrReadback : Event → Bool
  | Event.vpi GpuCall.submitConvertVid _ => true
  | Event.vpi GpuCall.submitRescale _ => true
  | Event.vpi GpuCall.submitPerspectiveWarp _ => true
  | Event.vpi GpuCall.submitConvertDisp _ => true
  | Event.vpi GpuCall.streamSync _ => true
  | Event.vpi GpuCall.imageLock _ => true
  | Event.vpi GpuCall.imageDataExport _ => true
  | Event.vpi GpuCall.imageUnlock _ => true
  | _ => false

/-! ## Lemmas on `getOutPoints` -/

theorem list_length_four {α : Type} (l : List α) (h : l.length = 4) :
    ∃ a b c d, l = [a, b, c, d] := by
  match l, h with
  | [a, b, c, d], _ => exact ⟨a, b, c, d, rfl⟩

theorem findIdx_found (ids : List Int) (hlen : ids.length = 4) (id : Int)
    (h : id ∈ ids) :
    ∃ i : Nat, i < 4 ∧ findIdx ids id 4 0 = some (i : Int) ∧ ids[i]? = some id
      ∧ ids.indexOf id = i := by
  obtain ⟨a, b, c, d, rfl⟩ := list_length_four ids hlen
  by_cases ha : a = id
  · exact ⟨0, by omega, by simp [findIdx, ha], by simp [ha], by simp [ha]⟩
  by_cases hb : b = id
  · exact ⟨1, by omega, by simp [findIdx, ha, hb], by simp [hb],
      by simp [List.indexOf_cons_ne _ ha, hb]⟩
  by_cases hc : c = id
  · exact ⟨2, by omega, by simp [findIdx, ha, hb, hc], by simp [hc],
      by simp [List.indexOf_cons_ne _ ha, List.indexOf_cons_ne _ hb, hc]⟩
  by_cases hd : d = id
  · exact ⟨3, by omega, by simp [findIdx, ha, hb, hc, hd], by simp [hd],
      by simp [List.indexOf_cons_ne _ ha, List.indexOf_cons_ne _ hb,
        List.indexOf_cons_ne _ hc, hd]⟩
  · exfalso
    simp at h
    rcases h with h | h | h | h
    · exact ha h.symm
    · exact hb h.symm
    · exact hc h.symm
    · exact hd h.symm

theorem findIdx_missing (ids : List Int) (hlen : ids.length = 4) (id : Int)
    (h : id ∉ ids) : findIdx ids id 4 0 = some (-1) := by
  obtain ⟨a, b, c, d, rfl⟩ := list_length_four ids hlen
  simp at h
  obtain ⟨ha, hb, hc, hd⟩ := h
  simp [findIdx, Ne.symm ha, Ne.symm hb, Ne.symm hc, Ne.symm hd]

theorem outPointsLoop_missing (corners : List (List Point2f)) (ids : List Int)
    (hlen : ids.length = 4) (n k : Nat) (pt : List Point2f)
    (h : (k : Int) ∉ ids) :
    outPointsLoop corners ids (n + 1) k pt = some (RET_ERR, pt) := by
  simp [outPointsLoop, findIdx_missing ids hlen _ h]

theorem outPointsLoop_found (corners : List (List Point2f)) (ids : List Int)
    (hlen : ids.length = 4) (hwf : WellFormed corners ids) (n k : Nat)
    (hk : k < 4) (pt : List Point2f) (h : (k : Int) ∈ ids) :
    ∃ i cs c, i < 4 ∧ ids[i]? = some (k : Int) ∧ corners[i]? = some cs ∧
      cs[k]? = some c ∧ markerCorner corners ids (k : Int) k = some c ∧
      outPointsLoop corners ids (n + 1) k pt =
        outPointsLoop corners ids n (k + 1)
          (pt.set k (Point.ofFloats c.x c.y).toPoint2f) := by
  obtain ⟨i, hi, hfind, hget, hidx⟩ := findIdx_found ids hlen _ h
  have hi2 : i < corners.length := by rw [hwf.1, hlen]; exact hi
  have hcs : (corners[i]).length = 4 := hwf.2 _ (List.getElem_mem _)
  have hk2 : k < (corners[i]).length := by rw [hcs]; exact hk
  refine ⟨i, corners[i], (corners[i])[k], hi, hget, ?_, ?_, ?_, ?_⟩
  · exact List.getElem?_eq_getElem hi2
  · exact List.getElem?_eq_getElem hk2
  · simp [markerCorner, hidx, List.getElem?_eq_getElem hi2, List.getElem?_eq_getElem hk2]
  · simp [outPointsLoop, hfind, List.getElem?_eq_getElem hi2, List.getElem?_eq_getElem hk2]

theorem perm_iff_mem (ids : List Int) :
    ids.Perm [0, 1, 2, 3] ↔
      ids.length = 4 ∧ (0 : Int) ∈ ids ∧ (1 : Int) ∈ ids ∧ (2 : Int) ∈ ids ∧
        (3 : Int) ∈ ids := by
  constructor
  · intro h
    refine ⟨by simpa using h.length_eq, ?_, ?_, ?_, ?_⟩ <;>
      exact h.symm.subset (by simp)
  · rintro ⟨hlen, h0, h1, h2, h3⟩
    have hnd : ([0, 1, 2, 3] : List Int).Nodup := by decide
    have hsub : ([0, 1, 2, 3] : List Int) ⊆ ids := by
      intro x hx
      simp at hx
      rcases hx with rfl | rfl | rfl | rfl <;> assumption
    exact ((List.subperm_of_subset hnd hsub).perm_of_length_le
      (by simp [hlen])).symm

theorem floatToInt_eq_trunc (v : ℚ) :
    floatToInt v = if 0 ≤ v then ⌊v⌋ else ⌈v⌉ := by
  unfold floatToInt
  split_ifs with h
  · rw [Rat.floor_def]
    have hn : 0 ≤ v.num := Rat.num_nonneg.2 h
    exact Int.tdiv_eq_ediv hn (by positivity)
  · have hn : 0 ≤ (-v).num := by
      rw [Rat.num_nonneg]
      linarith [not_le.1 h]
    have h1 : ⌈v⌉ = -⌊-v⌋ := by rw [Int.floor_neg, neg_neg]
    rw [h1, Rat.floor_def, ← Int.tdiv_eq_ediv hn (by positivity)]
    simp

theorem cvRound_intCast (n : Int) : cvRound (n : ℚ) = n := by
  simp [cvRound]

theorem toPoint_toPoint2f (q : Point) : q.toPoint2f.toPoint = q := by
  simp [Point.toPoint2f, Point2f.toPoint, cvRound_intCast]

theorem map_toPoint_toPoint2f (out : List Point2f)
    (h : ∀ p ∈ out, ∃ q : Point, p = q.toPoint2f) :
    (out.map Point2f.toPoint).map Point.toPoint2f = out := by
  induction out with
  | nil => rfl
  | cons p rest ih =>
    obtain ⟨q, rfl⟩ := h p (by simp)
    simp only [List.map_cons, toPoint_toPoint2f]
    rw [ih (fun p hp => h p (by simp [hp]))]

theorem getOutPoints_all_found (corners : List (List Point2f)) (ids : List Int)
    (hlen : ids.length = 4) (hwf : WellFormed corners ids)
    (pt : List Point2f) (hpt : pt.length = 4)
    (h0 : (0 : Int) ∈ ids) (h1 : (1 : Int) ∈ ids) (h2 : (2 : Int) ∈ ids)
    (h3 : (3 : Int) ∈ ids) :
    ∃ out, getOutPoints corners ids pt = some (RET_OK, out) ∧ out.length = 4 ∧
      (∀ p ∈ out, ∃ q : Point, p = q.toPoint2f) ∧
      ∀ k : Nat, k < 4 → ∃ i cs c, i < 4 ∧ ids[i]? = some (k : Int) ∧
        corners[i]? = some cs ∧ cs[k]? = some c ∧
        markerCorner corners ids (k : Int) k = some c ∧
        out[k]? = some (Point.ofFloats c.x c.y).toPoint2f := by
  obtain ⟨p0, p1, p2, p3, rfl⟩ := list_length_four pt hpt
  obtain ⟨i0, cs0, c0, hi0, hid0, hcs0, hc0, hm0, e0⟩ :=
    outPointsLoop_found corners ids hlen hwf 3 0 (by omega) [p0, p1, p2, p3]
      (by simpa using h0)
  obtain ⟨i1, cs1, c1, hi1, hid1, hcs1, hc1, hm1, e1⟩ :=
    outPointsLoop_found corners ids hlen hwf 2 1 (by omega)
      ([p0, p1, p2, p3].set 0 (Point.ofFloats c0.x c0.y).toPoint2f)
      (by simpa using h1)
  obtain ⟨i2, cs2, c2, hi2, hid2, hcs2, hc2, hm2, e2⟩ :=
    outPointsLoop_found corners ids hlen hwf 1 2 (by omega)
      (([p0, p1, p2, p3].set 0 (Point.ofFloats c0.x c0.y).toPoint2f).set 1
        (Point.ofFloats c1.x c1.y).toPoint2f)
      (by simpa using h2)
  obtain ⟨i3, cs3, c3, hi3, hid3, hcs3, hc3, hm3, e3⟩ :=
    outPointsLoop_found corners ids hlen hwf 0 3 (by omega)
      ((([p0, p1, p2, p3].set 0 (Point.ofFloats c0.x c0.y).toPoint2f).set 1
        (Point.ofFloats c1.x c1.y).toPoint2f).set 2
        (Point.ofFloats c2.x c2.y).toPoint2f)
      (by simpa using h3)
  refine ⟨[(Point.ofFloats c0.x c0.y).toPoint2f, (Point.ofFloats c1.x c1.y).toPoint2f,
    (Point.ofFloats c2.x c2.y).toPoint2f, (Point.ofFloats c3.x c3.y).toPoint2f], ?_, rfl, ?_, ?_⟩
  · unfold getOutPoints
    rw [e0, e1, e2, e3]
    simp [outPointsLoop]
  · intro p hp
    simp only [List.mem_cons, List.mem_singleton, List.not_mem_nil, or_false] at hp
    rcases hp with rfl | rfl | rfl | rfl <;> exact ⟨_, rfl⟩
  · intro k hk
    interval_cases k
    · exact ⟨i0, cs0, c0, hi0, hid0, hcs0, hc0, hm0, rfl⟩
    · exact ⟨i1, cs1, c1, hi1, hid1, hcs1, hc1, hm1, rfl⟩
    · exact ⟨i2, cs2, c2, hi2, hid2, hcs2, hc2, hm2, rfl⟩
    · exact ⟨i3, cs3, c3, hi3, hid3, hcs3, hc3, hm3, rfl⟩

theorem getOutPoints_ret (corners : List (List Point2f)) (ids : List Int)
    (hlen : ids.length = 4) (hwf : WellFormed corners ids)
    (pt : List Point2f) (hpt : pt.length = 4) :
    ∃ r out, getOutPoints corners ids pt = some (r, out) ∧
      (r = RET_OK ∨ r = RET_ERR) ∧ (r = RET_OK ↔ ids.Perm [0, 1, 2, 3]) := by
  have hne : RET_ERR ≠ RET_OK := by decide
  by_cases h0 : (0 : Int) ∈ ids
  swap
  · refine ⟨RET_ERR, pt, ?_, Or.inr rfl, ?_⟩
    · exact outPointsLoop_missing corners ids hlen 3 0 pt (by simpa using h0)
    · simp [hne, perm_iff_mem, h0]
  obtain ⟨_, _, c0, _, _, _, _, _, e0⟩ :=
    outPointsLoop_found corners ids hlen hwf 3 0 (by omega) pt (by simpa using h0)
  by_cases h1 : (1 : Int) ∈ ids
  swap
  · refine ⟨RET_ERR, pt.set 0 (Point.ofFloats c0.x c0.y).toPoint2f, ?_, Or.inr rfl, ?_⟩
    · unfold getOutPoints
      rw [e0]
      exact outPointsLoop_missing corners ids hlen 2 1 _ (by simpa using h1)
    · simp [hne, perm_iff_mem, h1]
  obtain ⟨_, _, c1, _, _, _, _, _, e1⟩ :=
    outPointsLoop_found corners ids hlen hwf 2 1 (by omega)
      (pt.set 0 (Point.ofFloats c0.x c0.y).toPoint2f) (by simpa using h1)
  by_cases h2 : (2 : Int) ∈ ids
  swap
  · refine ⟨RET_ERR, (pt.set 0 (Point.ofFloats c0.x c0.y).toPoint2f).set 1
      (Point.ofFloats c1.x c1.y).toPoint2f, ?_, Or.inr rfl, ?_⟩
    · unfold getOutPoints
      rw [e0, e1]
      exact outPointsLoop_missing corners ids hlen 1 2 _ (by simpa using h2)
    · simp [hne, perm_iff_mem, h2]
  obtain ⟨_, _, c2, _, _, _, _, _, e2⟩ :=
    outPointsLoop_found corners ids hlen hwf 1 2 (by omega)
      ((pt.set 0 (Point.ofFloats c0.x c0.y).toPoint2f).set 1
        (Point.ofFloats c1.x c1.y).toPoint2f) (by simpa using h2)
  by_cases h3 : (3 : Int) ∈ ids
  swap
  · refine ⟨RET_ERR, ((pt.set 0 (Point.ofFloats c0.x c0.y).toPoint2f).set 1
      (Point.ofFloats c1.x c1.y).toPoint2f).set 2 (Point.ofFloats c2.x c2.y).toPoint2f,
      ?_, Or.inr rfl, ?_⟩
    · unfold getOutPoints
      rw [e0, e1, e2]
      exact outPointsLoop_missing corners ids hlen 0 3 _ (by simpa using h3)
    · simp [hne, perm_iff_mem, h3]
  · obtain ⟨out, hout, _, _, _⟩ :=
      getOutPoints_all_found corners ids hlen hwf pt hpt h0 h1 h2 h3
    exact ⟨RET_OK, out, hout, Or.inl rfl, by simp [perm_iff_mem, hlen, h0, h1, h2, h3]⟩

/-! ## The quadrilateral resolver -/

/-- C10: for `ids` a permutation of 0,1,2,3 and four markers of four
corners each, `getOutPoints` reads only inside its vectors (it has a
result), returns `RET_OK`, and sets `ptDst[k]` to corner number `k` of the
marker whose identity is `k`, each coordinate truncated toward zero to a
whole number (the floor of a coordinate that is not negative, the ceiling
of a negative one); the vertices having whole coordinates, converting them
to `cv::Point` for the fill loses nothing. -/
theorem C10_getOutPoints_corner_k_truncated (corners : List (List Point2f))
    (ids : List Int) (ptDst : List Point2f) (hperm : ids.Perm [0, 1, 2, 3])
    (hcorners : corners.length = 4) (hfour : ∀ cs ∈ corners, cs.length = 4)
    (hpt : ptDst.length = 4) :
    ∃ out, getOutPoints corners ids ptDst = some (RET_OK, out) ∧
      out.length = 4 ∧
      (out.map Point2f.toPoint).map Point.toPoint2f = out ∧
      ∀ k : Nat, k < 4 → ∃ i cs c, i < 4 ∧ ids[i]? = some (k : Int) ∧
        corners[i]? = some cs ∧ cs[k]? = some c ∧
        out[k]? = some ⟨((floatToInt c.x : Int) : ℚ), ((floatToInt c.y : Int) : ℚ)⟩ ∧
        floatToInt c.x = (if 0 ≤ c.x then ⌊c.x⌋ else ⌈c.x⌉) ∧
        floatToInt c.y = (if 0 ≤ c.y then ⌊c.y⌋ else ⌈c.y⌉) := by
  obtain ⟨hlen, h0, h1, h2, h3⟩ := (perm_iff_mem ids).1 hperm
  have hwf : WellFormed corners ids := ⟨by rw [hcorners, hlen], hfour⟩
  obtain ⟨out, hout, hl, hint, hk⟩ :=
    getOutPoints_all_found corners ids hlen hwf ptDst hpt h0 h1 h2 h3
  refine ⟨out, hout, hl, map_toPoint_toPoint2f out hint, fun k hk4 => ?_⟩
  obtain ⟨i, cs, c, hi, hid, hcs, hc, _, ho⟩ := hk k hk4
  exact ⟨i, cs, c, hi, hid, hcs, hc, ho, floatToInt_eq_trunc c.x, floatToInt_eq_trunc c.y⟩

/-- Witness of C10 on the fractional detection with the identities in the
order 2, 0, 3, 1. -/
theorem C10_getOutPoints_corner_k_truncated_witness :
    ∃ out, getOutPoints fractionalCorners [2, 0, 3, 1] ptDstInit = some (RET_OK, out) ∧
      out.length = 4 ∧
      (out.map Point2f.toPoint).map Point.toPoint2f = out ∧
      ∀ k : Nat, k < 4 → ∃ i cs c, i < 4 ∧ ([2, 0, 3, 1] : List Int)[i]? = some (k : Int) ∧
        fractionalCorners[i]? = some cs ∧ cs[k]? = some c ∧
        out[k]? = some ⟨((floatToInt c.x : Int) : ℚ), ((floatToInt c.y : Int) : ℚ)⟩ ∧
        floatToInt c.x = (if 0 ≤ c.x then ⌊c.x⌋ else ⌈c.x⌉) ∧
        floatToInt c.y = (if 0 ≤ c.y then ⌊c.y⌋ else ⌈c.y⌉) :=
  C10_getOutPoints_corner_k_truncated fractionalCorners [2, 0, 3, 1] ptDstInit
    (by decide) (by decide) (by decide) (by decide)

/-- C2, as stated, fails: on the square detection no single corner index
`c` gives all four vertices, and on the fractional detection, where the
corner index cannot matter, the vertices are not the corner points
themselves. -/
theorem C2_counterexample_single_index :
    (∃ out, getOutPoints squareCorners [0, 1, 2, 3] ptDstInit = some (RET_OK, out) ∧
      ¬ ∃ c, c < 4 ∧ ∀ k : Nat, k < 4 →
        out[k]? = markerCorner squareCorners [0, 1, 2, 3] (k : Int) c) ∧
    (∃ out, getOutPoints fractionalCorners [0, 1, 2, 3] ptDstInit = some (RET_OK, out) ∧
      ¬ ∃ c, c < 4 ∧ ∀ k : Nat, k < 4 →
        out[k]? = markerCorner fractionalCorners [0, 1, 2, 3] (k : Int) c) :=
  ⟨⟨[⟨100, 100⟩, ⟨200, 100⟩, ⟨200, 200⟩, ⟨100, 200⟩], by decide, by decide⟩,
   ⟨[⟨10, 10⟩, ⟨20, 10⟩, ⟨20, 20⟩, ⟨10, 20⟩], by decide, by decide⟩⟩

/-- C2, amended: for `ids` a permutation of 0,1,2,3 the resolver assigns to
vertex `k` corner number `k` of the marker whose identity is `k` (the
corner index is the identity, not one index for all markers), with each
coordinate truncated toward zero. -/
theorem C2_vertex_k_is_corner_k_of_marker_k (corners : List (List Point2f))
    (ids : List Int) (hperm : ids.Perm [0, 1, 2, 3])
    (hwf : WellFormed corners ids) :
    ∃ out, getOutPoints corners ids ptDstInit = some (RET_OK, out) ∧
      ∀ k : Nat, k < 4 → ∃ c, markerCorner corners ids (k : Int) k = some c ∧
        out[k]? = some (Point.ofFloats c.x c.y).toPoint2f := by
  obtain ⟨hlen, h0, h1, h2, h3⟩ := (perm_iff_mem ids).1 hperm
  obtain ⟨out, hout, _, _, hk⟩ :=
    getOutPoints_all_found corners ids hlen hwf ptDstInit (by decide) h0 h1 h2 h3
  refine ⟨out, hout, fun k hk4 => ?_⟩
  obtain ⟨_, _, c, _, _, _, _, hm, ho⟩ := hk k hk4
  exact ⟨c, hm, ho⟩

/-- Witness of amended C2 on the fractional detection with the identities
in the order 3, 1, 0, 2. -/
theorem C2_vertex_k_is_corner_k_of_marker_k_witness :
    ∃ out, getOutPoints fractionalCorners [3, 1, 0, 2] ptDstInit = some (RET_OK, out) ∧
      ∀ k : Nat, k < 4 → ∃ c, markerCorner fractionalCorners [3, 1, 0, 2] (k : Int) k = some c ∧
        out[k]? = some (Point.ofFloats c.x c.y).toPoint2f :=
  C2_vertex_k_is_corner_k_of_marker_k fractionalCorners [3, 1, 0, 2] (by decide)
    ⟨by decide, by decide⟩

/-! ## The composite decision of one pass -/

theorem checkStatus_ok (status : Nat → Nat) (l : List GpuCall) (k : Nat)
    (h : (checkStatus status k l).2 = true) :
    (checkStatus status k l).1 = l.map (fun c => Event.vpi c VPI_SUCCESS) := by
  induction l generalizing k with
  | nil => simp [checkStatus]
  | cons c rest ih =>
    by_cases hs : status k = VPI_SUCCESS
    · simp only [checkStatus, hs, if_true] at h ⊢
      simp [ih (k + 1) h]
    · simp [checkStatus, hs] at h

theorem checkStatus_all_success (status : Nat → Nat) (l : List GpuCall) (k : Nat)
    (h : ∀ j, status j = VPI_SUCCESS) : (checkStatus status k l).2 = true := by
  induction l generalizing k with
  | nil => simp [checkStatus]
  | cons c rest ih => simp [checkStatus, h k, ih (k + 1)]

/-- C1: for the detection of one frame, `getOutPoints` is called only when
there are exactly 4 identities; for 4 identities it returns `RET_OK`
exactly when each of 0,1,2,3 occurs among them; a step of the composite
path (fill, transform, warp, add) runs if and only if there are exactly 4
identities and they are a permutation of 0,1,2,3, in which case the fill
and the transform run (and the warp and the add too when the video
delivers a frame and no checked call fails); in every other case the frame
is shown as captured. -/
theorem C1_composite_iff_four_ids_permutation (capWidth capHeight : Int)
    (w : Wrappers) (f : FrameInput) (hwf : WellFormed f.corners f.ids) :
    ((∃ r, Event.getOutPoints r ∈ (processFrame capWidth capHeight w f).1) →
        f.ids.length = 4) ∧
    (f.ids.length = 4 → ∃ r out,
        getOutPoints f.corners f.ids ptDstInit = some (r, out) ∧
        (r = RET_OK ↔ ((0 : Int) ∈ f.ids ∧ (1 : Int) ∈ f.ids ∧ (2 : Int) ∈ f.ids ∧
          (3 : Int) ∈ f.ids))) ∧
    ((∃ e ∈ (processFrame capWidth capHeight w f).1, isCompositeStep e = true) ↔
        (f.ids.length = 4 ∧ f.ids.Perm [0, 1, 2, 3])) ∧
    ((f.ids.length = 4 ∧ f.ids.Perm [0, 1, 2, 3]) →
        (∃ pt dst, Event.fillConvexPoly pt ∈ (processFrame capWidth capHeight w f).1 ∧
          Event.getPerspectiveTransform (ptSrc capWidth capHeight) dst ∈
            (processFrame capWidth capHeight w f).1) ∧
        (f.vidRead = true → (∀ j, f.status j = VPI_SUCCESS) →
          Event.vpi GpuCall.submitPerspectiveWarp VPI_SUCCESS ∈
            (processFrame capWidth capHeight w f).1 ∧
          Event.add ∈ (processFrame capWidth capHeight w f).1)) ∧
    (¬ (f.ids.length = 4 ∧ f.ids.Perm [0, 1, 2, 3]) →
        Event.imshow ∈ (processFrame capWidth capHeight w f).1 ∧
        (processFrame capWidth capHeight w f).2 ≠ Flow.thrown ∧
        (processFrame capWidth capHeight w f).2 ≠ Flow.undefined) := by
  by_cases hlen : f.ids.length = 4
  · obtain ⟨r, out, hget, hr, hiff⟩ :=
      getOutPoints_ret f.corners f.ids hlen hwf ptDstInit (by decide)
    have hmem : r = RET_OK ↔ ((0 : Int) ∈ f.ids ∧ (1 : Int) ∈ f.ids ∧
        (2 : Int) ∈ f.ids ∧ (3 : Int) ∈ f.ids) := by
      rw [hiff, perm_iff_mem]; simp [hlen]
    refine ⟨fun _ => hlen, fun _ => ⟨r, out, hget, hmem⟩, ?_, ?_, ?_⟩
    · rcases hr with rfl | rfl
      · have hp : f.ids.Perm [0, 1, 2, 3] := hiff.1 rfl
        simp only [hlen, hp, and_self, iff_true]
        refine ⟨Event.fillConvexPoly (out.map Point2f.toPoint), ?_, rfl⟩
        simp only [processFrame, hlen, hget]
        by_cases hv : f.vidRead = true
        · by_cases hg : (checkStatus f.status 0 (gpuStage w)).2 = true
          · simp [hv, hg]
          · simp [hv, hg]
        · simp [hv]
      · have hp : ¬ f.ids.Perm [0, 1, 2, 3] := fun h => by
          have := hiff.2 h; revert this; decide
        simp only [hlen, hp, and_false, iff_false]
        simp [processFrame, hlen, hget, RET_ERR, RET_OK, isCompositeStep]
    · rintro ⟨_, hp⟩
      have hr0 : r = RET_OK := hiff.2 hp
      subst hr0
      refine ⟨⟨out.map Point2f.toPoint, out, ?_, ?_⟩, ?_⟩
      · simp only [processFrame, hlen, hget]
        by_cases hv : f.vidRead = true
        · by_cases hg : (checkStatus f.status 0 (gpuStage w)).2 = true
          · simp [hv, hg]
          · simp [hv, hg]
        · simp [hv]
      · simp only [processFrame, hlen, hget]
        by_cases hv : f.vidRead = true
        · by_cases hg : (checkStatus f.status 0 (gpuStage w)).2 = true
          · simp [hv, hg]
          · simp [hv, hg]
        · simp [hv]
      · intro hv hs
        have hg := checkStatus_all_success f.status (gpuStage w) 0 hs
        simp only [processFrame, hlen, hget]
        simp only [hv, hg, checkStatus_ok _ _ _ hg, if_true]
        simp [gpuStage]
    · intro hn
      have hp : ¬ f.ids.Perm [0, 1, 2, 3] := fun h => hn ⟨hlen, h⟩
      have hr1 : r = RET_ERR := by
        rcases hr with rfl | rfl
        · exact absurd (hiff.1 rfl) hp
        · rfl
      subst hr1
      simp [processFrame, hlen, hget, RET_ERR, RET_OK]
  · refine ⟨?_, fun h => absurd h hlen, ?_, fun h => absurd h.1 hlen, ?_⟩
    · simp [processFrame, hlen, keyPoll]
    · simp only [hlen, false_and, iff_false]
      simp only [processFrame, hlen, keyPoll, if_false]
      simp only [List.mem_append, List.mem_cons, List.mem_singleton, List.not_mem_nil,
        or_false, not_exists, not_and]
      rintro e ((((rfl | rfl) | he) | rfl) | rfl)
      · simp [isCompositeStep]
      · simp [isCompositeStep]
      · split_ifs at he
        · simp at he; subst he; simp [isCompositeStep]
        · simp at he
      · simp [isCompositeStep]
      · simp [isCompositeStep]
    · intro _
      simp only [processFrame, hlen, keyPoll, if_false]
      refine ⟨by simp, ?_, ?_⟩ <;> split_ifs <;> simp

/-! ## Shape of a run -/

theorem quiet_nil : Quiet [] := by
  intro e he
  simp at he

theorem quiet_cons (e : Event) (t : List Event) :
    Quiet (e :: t) ↔
      (isFailure e = false ∧ isVidEnd e = false ∧ e ≠ Event.contextDestroy) ∧ Quiet t := by
  simp [Quiet]

theorem quiet_append (a b : List Event) : Quiet (a ++ b) ↔ Quiet a ∧ Quiet b := by
  simp only [Quiet, List.mem_append]
  constructor
  · intro h
    exact ⟨fun e he => h e (Or.inl he), fun e he => h e (Or.inr he)⟩
  · rintro ⟨ha, hb⟩ e (he | he)
    · exact ha e he
    · exact hb e he

theorem shape_extend (p t : List Event) (thrown done : Prop) (hp : Quiet p)
    (h : Shape t thrown done) : Shape (p ++ t) thrown done := by
  rcases h with h | ⟨A, c, s, rfl, hA, hs, ht⟩ | ⟨A, pt, src, dst, rfl, hA, hd⟩
  · exact Or.inl ((quiet_append p t).2 ⟨hp, h⟩)
  · exact Or.inr (Or.inl ⟨p ++ A, c, s, by simp, (quiet_append p A).2 ⟨hp, hA⟩, hs, ht⟩)
  · exact Or.inr (Or.inr ⟨p ++ A, pt, src, dst, by simp,
      (quiet_append p A).2 ⟨hp, hA⟩, hd⟩)

theorem checkStatus_shape (status : Nat → Nat) (l : List GpuCall) (k : Nat) :
    ((checkStatus status k l).2 = true ∧ Quiet (checkStatus status k l).1) ∨
    ((checkStatus status k l).2 = false ∧ ∃ A c s,
      (checkStatus status k l).1 = A ++ [Event.vpi c s] ∧ Quiet A ∧ s ≠ VPI_SUCCESS) := by
  induction l generalizing k with
  | nil => exact Or.inl ⟨rfl, quiet_nil⟩
  | cons c rest ih =>
    by_cases hs : status k = VPI_SUCCESS
    · have hq : Quiet [Event.vpi c (status k)] := by
        simp [quiet_cons, quiet_nil, isFailure, isVidEnd, hs]
      rcases ih (k + 1) with ⟨h2, hq2⟩ | ⟨h2, A, c', s, hA, hqA, hne⟩
      · left
        simp only [checkStatus, hs, if_true]
        refine ⟨h2, ?_⟩
        have := (quiet_append [Event.vpi c (status k)] _).2 ⟨hq, hq2⟩
        simpa [hs] using this
      · right
        simp only [checkStatus, hs, if_true]
        refine ⟨h2, Event.vpi c VPI_SUCCESS :: A, c', s, ?_, ?_, hne⟩
        · simp [hA]
        · have := (quiet_append [Event.vpi c (status k)] A).2 ⟨hq, hqA⟩
          simpa [hs] using this
    · right
      have e : checkStatus status k (c :: rest) = ([Event.vpi c (status k)], false) := by
        simp [checkStatus, hs]
      rw [e]
      exact ⟨rfl, [], c, status k, rfl, quiet_nil, hs⟩

theorem processFrame_other (capWidth capHeight : Int) (w : Wrappers) (f : FrameInput)
    (hlen : f.ids.length ≠ 4) :
    processFrame capWidth capHeight w f =
      (([Event.detectMarkers, Event.copyTo] ++
          (if 0 < f.ids.length ∧ f.ids.length < 4 then [Event.drawDetectedMarkers]
           else [])) ++ [Event.imshow] ++ (keyPoll f.key w).1, (keyPoll f.key w).2) := by
  simp [processFrame, hlen]

theorem processFrame_undefined (capWidth capHeight : Int) (w : Wrappers) (f : FrameInput)
    (hlen : f.ids.length = 4) (hget : getOutPoints f.corners f.ids ptDstInit = none) :
    processFrame capWidth capHeight w f =
      ([Event.detectMarkers, Event.copyTo], Flow.undefined) := by
  simp [processFrame, hlen, hget]

theorem processFrame_incomplete (capWidth capHeight : Int) (w : Wrappers) (f : FrameInput)
    (hlen : f.ids.length = 4) (r : Int) (out : List Point2f)
    (hget : getOutPoints f.corners f.ids ptDstInit = some (r, out)) (hr : r ≠ RET_OK) :
    processFrame capWidth capHeight w f =
      ([Event.detectMarkers, Event.copyTo, Event.getOutPoints r, Event.imshow],
        Flow.next w) := by
  simp [processFrame, hlen, hget, hr]

theorem processFrame_vidEnd (capWidth capHeight : Int) (w : Wrappers) (f : FrameInput)
    (hlen : f.ids.length = 4) (out : List Point2f)
    (hget : getOutPoints f.corners f.ids ptDstInit = some (RET_OK, out))
    (hv : f.vidRead = false) :
    processFrame capWidth capHeight w f =
      ([Event.detectMarkers, Event.copyTo, Event.getOutPoints RET_OK,
        Event.fillConvexPoly (out.map Point2f.toPoint),
        Event.getPerspectiveTransform (ptSrc capWidth capHeight) out,
        Event.invidRead false, Event.invidRelease], Flow.brk) := by
  simp [processFrame, hlen, hget, hv]

theorem processFrame_thrown (capWidth capHeight : Int) (w : Wrappers) (f : FrameInput)
    (hlen : f.ids.length = 4) (out : List Point2f)
    (hget : getOutPoints f.corners f.ids ptDstInit = some (RET_OK, out))
    (hv : f.vidRead = true) (hg : (checkStatus f.status 0 (gpuStage w)).2 = false) :
    processFrame capWidth capHeight w f =
      ([Event.detectMarkers, Event.copyTo, Event.getOutPoints RET_OK,
        Event.fillConvexPoly (out.map Point2f.toPoint),
        Event.getPerspectiveTransform (ptSrc capWidth capHeight) out,
        Event.invidRead true] ++ (checkStatus f.status 0 (gpuStage w)).1, Flow.thrown) := by
  simp [processFrame, hlen, hget, hv, hg]

theorem processFrame_composite (capWidth capHeight : Int) (w : Wrappers) (f : FrameInput)
    (hlen : f.ids.length = 4) (out : List Point2f)
    (hget : getOutPoints f.corners f.ids ptDstInit = some (RET_OK, out))
    (hv : f.vidRead = true) (hg : (checkStatus f.status 0 (gpuStage w)).2 = true) :
    processFrame capWidth capHeight w f =
      ([Event.detectMarkers, Event.copyTo, Event.getOutPoints RET_OK,
        Event.fillConvexPoly (out.map Point2f.toPoint),
        Event.getPerspectiveTransform (ptSrc capWidth capHeight) out,
        Event.invidRead true] ++ (gpuStage w).map (fun c => Event.vpi c VPI_SUCCESS) ++
        [Event.add, Event.imshow, Event.waitKey 5 f.key],
       if 0 ≤ f.key then Flow.brk else Flow.next ⟨true, true⟩) := by
  simp [processFrame, hlen, hget, hv, hg, checkStatus_ok _ _ _ hg, keyPoll]

theorem quiet_pre (n : Nat) :
    Quiet ([Event.detectMarkers, Event.copyTo] ++
      (if 0 < n ∧ n < 4 then [Event.drawDetectedMarkers] else [])) := by
  split_ifs <;> simp [Quiet, isFailure, isVidEnd]

theorem quiet_keyPoll (key : Int) (w : Wrappers) : Quiet (keyPoll key w).1 := by
  simp [Quiet, keyPoll, isFailure, isVidEnd]

theorem quiet_map_success (l : List GpuCall) :
    Quiet (l.map (fun c => Event.vpi c VPI_SUCCESS)) := by
  intro e he
  simp only [List.mem_map] at he
  obtain ⟨c, _, rfl⟩ := he
  simp [isFailure, isVidEnd]

theorem processFrame_shape (capWidth capHeight : Int) (w : Wrappers) (f : FrameInput) :
    Quiet (processFrame capWidth capHeight w f).1 ∨
    (∃ A c s, (processFrame capWidth capHeight w f).1 = A ++ [Event.vpi c s] ∧
      Quiet A ∧ s ≠ VPI_SUCCESS ∧ (processFrame capWidth capHeight w f).2 = Flow.thrown) ∨
    (∃ pt src dst, (processFrame capWidth capHeight w f).1 =
        [Event.detectMarkers, Event.copyTo, Event.getOutPoints RET_OK,
          Event.fillConvexPoly pt, Event.getPerspectiveTransform src dst,
          Event.invidRead false, Event.invidRelease] ∧
      (processFrame capWidth capHeight w f).2 = Flow.brk) := by
  by_cases hlen : f.ids.length = 4
  · cases hget : getOutPoints f.corners f.ids ptDstInit with
    | none =>
      left
      rw [processFrame_undefined _ _ _ _ hlen hget]
      simp [Quiet, isFailure, isVidEnd]
    | some p =>
      obtain ⟨r, out⟩ := p
      by_cases hr : r = RET_OK
      · subst hr
        by_cases hv : f.vidRead = true
        · rcases checkStatus_shape f.status (gpuStage w) 0 with
            ⟨h2, _⟩ | ⟨h2, A, c, s, hA, hqA, hne⟩
          · left
            rw [processFrame_composite _ _ _ _ hlen out hget hv h2]
            simp only [quiet_append]
            exact ⟨⟨by simp [Quiet, isFailure, isVidEnd], quiet_map_success _⟩,
              by simp [Quiet, isFailure, isVidEnd]⟩
          · right; left
            rw [processFrame_thrown _ _ _ _ hlen out hget hv h2]
            refine ⟨[Event.detectMarkers, Event.copyTo, Event.getOutPoints RET_OK,
              Event.fillConvexPoly (out.map Point2f.toPoint),
              Event.getPerspectiveTransform (ptSrc capWidth capHeight) out,
              Event.invidRead true] ++ A, c, s, ?_, ?_, hne, rfl⟩
            · simp [hA]
            · rw [quiet_append]
              exact ⟨by simp [Quiet, isFailure, isVidEnd], hqA⟩
        · right; right
          have hv2 : f.vidRead = false := by simpa using hv
          rw [processFrame_vidEnd _ _ _ _ hlen out hget hv2]
          exact ⟨_, _, _, rfl, rfl⟩
      · left
        rw [processFrame_incomplete _ _ _ _ hlen r out hget hr]
        simp [Quiet, isFailure, isVidEnd]
  · left
    rw [processFrame_other _ _ _ _ hlen]
    rw [quiet_append, quiet_append]
    exact ⟨⟨quiet_pre _, by simp [Quiet, isFailure, isVidEnd]⟩, quiet_keyPoll _ _⟩

theorem mainLoop_shape (capWidth capHeight : Int) (fs : List FrameInput) (w : Wrappers) :
    Shape (mainLoop capWidth capHeight w fs).1
      ((mainLoop capWidth capHeight w fs).2 = BodyEnd.thrown)
      ((mainLoop capWidth capHeight w fs).2 = BodyEnd.done) := by
  induction fs generalizing w with
  | nil => exact Or.inl (by simp [mainLoop, quiet_nil])
  | cons f rest ih =>
    by_cases hl : f.loopFlag = true
    swap
    · exact Or.inl (by simp [mainLoop, hl, quiet_nil])
    by_cases hb : f.blank = true
    · exact Or.inl (by simp [mainLoop, hl, hb, Quiet, isFailure, isVidEnd])
    have hcap : Quiet [Event.capRead false] := by simp [Quiet, isFailure, isVidEnd]
    have hshape := processFrame_shape capWidth capHeight w f
    rcases hpf : processFrame capWidth capHeight w f with ⟨t, fl⟩
    rw [hpf] at hshape
    simp only at hshape
    cases fl with
    | next w' =>
      have hq : Quiet t := by
        rcases hshape with h | ⟨_, _, _, _, _, _, h⟩ | ⟨_, _, _, _, h⟩
        · exact h
        · exact absurd h (by simp)
        · exact absurd h (by simp)
      have := shape_extend (Event.capRead false :: t) _ _ _
        ((quiet_append [Event.capRead false] t).2 ⟨hcap, hq⟩) (ih w')
      simpa [mainLoop, hl, hb, hpf] using this
    | brk =>
      rcases hshape with h | ⟨_, _, _, _, _, _, h⟩ | ⟨pt, src, dst, h, _⟩
      · left
        simpa [mainLoop, hl, hb, hpf] using (quiet_append [Event.capRead false] t).2 ⟨hcap, h⟩
      · exact absurd h (by simp)
      · right; right
        refine ⟨[], pt, src, dst, ?_, quiet_nil, ?_⟩
        · simp [mainLoop, hl, hb, hpf, h, vidEndHead]
        · simp [mainLoop, hl, hb, hpf]
    | thrown =>
      rcases hshape with h | ⟨A, c, s, hA, hqA, hne, _⟩ | ⟨_, _, _, _, h⟩
      · left
        simpa [mainLoop, hl, hb, hpf] using (quiet_append [Event.capRead false] t).2 ⟨hcap, h⟩
      · right; left
        refine ⟨Event.capRead false :: A, c, s, ?_,
          (quiet_append [Event.capRead false] A).2 ⟨hcap, hqA⟩, hne, ?_⟩
        · simp [mainLoop, hl, hb, hpf, hA]
        · simp [mainLoop, hl, hb, hpf]
      · exact absurd h (by simp)
    | undefined =>
      rcases hshape with h | ⟨_, _, _, _, _, _, h⟩ | ⟨_, _, _, _, h⟩
      · left
        simpa [mainLoop, hl, hb, hpf] using (quiet_append [Event.capRead false] t).2 ⟨hcap, h⟩
      · exact absurd h (by simp)
      · exact absurd h (by simp)

theorem tryBody_shape (env : Env) :
    Shape (tryBody env).1 ((tryBody env).2 = BodyEnd.thrown)
      ((tryBody env).2 = BodyEnd.done) := by
  by_cases hc : env.cameraOpened = true
  swap
  · exact Or.inl (by simp [tryBody, hc, Quiet, isFailure, isVidEnd])
  by_cases hv : env.videoOpened = true
  swap
  · exact Or.inl (by simp [tryBody, hc, hv, Quiet, isFailure, isVidEnd])
  have hopen : Quiet [Event.openCamera true, Event.openVideo true] := by
    simp [Quiet, isFailure, isVidEnd]
  rcases checkStatus_shape env.setupStatus (setupStage env) 0 with
    ⟨h2, hq⟩ | ⟨h2, A, c, s, hA, hqA, hne⟩
  · by_cases hs : env.signalOk = true
    · have hp : Quiet (([Event.openCamera true, Event.openVideo true] ++
          (checkStatus env.setupStatus 0 (setupStage env)).1) ++ [Event.signal true]) := by
        rw [quiet_append, quiet_append]
        exact ⟨⟨hopen, hq⟩, by simp [Quiet, isFailure, isVidEnd]⟩
      have := shape_extend _ _ _ _ hp
        (mainLoop_shape env.capWidth env.capHeight env.frames ⟨false, false⟩)
      simpa [tryBody, hc, hv, h2, hs] using this
    · left
      have hp : Quiet (([Event.openCamera true, Event.openVideo true] ++
          (checkStatus env.setupStatus 0 (setupStage env)).1) ++ [Event.signal false]) := by
        rw [quiet_append, quiet_append]
        exact ⟨⟨hopen, hq⟩, by simp [Quiet, isFailure, isVidEnd]⟩
      simpa [tryBody, hc, hv, h2, hs] using hp
  · right; left
    refine ⟨[Event.openCamera true, Event.openVideo true] ++ A, c, s, ?_, ?_, hne, ?_⟩
    · simp [tryBody, hc, hv, h2, hA]
    · exact (quiet_append _ _).2 ⟨hopen, hqA⟩
    · simp [tryBody, hc, hv, h2]

theorem main_shape (env : Env) :
    (∀ e ∈ (main env).trace, isFailure e = false ∧ isVidEnd e = false) ∨
    (∃ A c s, (main env).trace = A ++ Event.vpi c s :: cleanup ∧ Quiet A ∧
      s ≠ VPI_SUCCESS ∧ (main env).ret = some RET_ERR) ∨
    (∃ A pt src dst, (main env).trace =
        (A ++ vidEndHead pt src dst) ++
          Event.invidRead false :: Event.invidRelease :: cleanup ∧
      Quiet A ∧ (main env).ret = some RET_OK) := by
  by_cases ha : env.argsErr = true
  · left
    simp [main, ha, isFailure, isVidEnd]
  have hclean : ∀ e ∈ cleanup, isFailure e = false ∧ isVidEnd e = false := by
    simp [cleanup, isFailure, isVidEnd]
  have hshape := tryBody_shape env
  rcases htb : tryBody env with ⟨t, e⟩
  rw [htb] at hshape
  simp only at hshape
  rcases hshape with hq | ⟨A, c, s, rfl, hqA, hne, rfl⟩ | ⟨A, pt, src, dst, rfl, hqA, rfl⟩
  · left
    have hq2 : ∀ x ∈ t, isFailure x = false ∧ isVidEnd x = false :=
      fun x hx => ⟨(hq x hx).1, (hq x hx).2.1⟩
    cases e <;> simp only [main, ha, htb] <;> intro x hx
    · rcases List.mem_append.1 hx with h | h
      · exact hq2 x h
      · exact hclean x h
    · rcases List.mem_append.1 hx with h | h
      · exact hq2 x h
      · exact hclean x h
    · exact hq2 x hx
    · exact hq2 x hx
    · exact hq2 x hx
  · right; left
    exact ⟨A, c, s, by simp [main, ha, htb], hqA, hne, by simp [main, ha, htb]⟩
  · right; right
    exact ⟨A, pt, src, dst, by simp [main, ha, htb], hqA, by simp [main, ha, htb]⟩

theorem split_unique (P : Event → Bool) (A C : List Event) (x : Event)
    (hA : ∀ e ∈ A, P e = false) (hC : ∀ e ∈ C, P e = false) (pre post : List Event)
    (y : Event) (hy : P y = true) (h : A ++ x :: C = pre ++ y :: post) :
    pre = A ∧ y = x ∧ post = C := by
  induction A generalizing pre with
  | nil =>
    cases pre with
    | nil =>
      simp at h
      exact ⟨rfl, h.1.symm, h.2.symm⟩
    | cons p pre' =>
      simp at h
      have : y ∈ C := by rw [h.2]; simp
      rw [hC y this] at hy
      exact absurd hy (by simp)
  | cons a A' ih =>
    cases pre with
    | nil =>
      simp at h
      have := hA a (by simp)
      rw [h.1, hy] at this
      exact absurd this (by simp)
    | cons p pre' =>
      simp at h
      obtain ⟨hp, h'⟩ := h
      obtain ⟨h1, h2, h3⟩ := ih (fun e he => hA e (by simp [he])) pre' h'
      exact ⟨by rw [h1, hp], h2, h3⟩

/-! ## Failure of a checked call, end of the secondary video -/

/-- C6: when a checked call of a run reports a status other than
`VPI_SUCCESS`, nothing follows it but the clean-up (`vpiContextDestroy`,
`cap.release`, `releaseArgs`): no later pipeline call is made and the loop
is left; the context is destroyed exactly once in the run, and `main`
returns `RET_ERR`. -/
theorem C6_gpu_failure_aborts_with_cleanup (env : Env) (pre post : List Event)
    (c : GpuCall) (s : Nat) (h : (main env).trace = pre ++ Event.vpi c s :: post)
    (hs : s ≠ VPI_SUCCESS) :
    post = cleanup ∧ (main env).ret = some RET_ERR ∧ RET_ERR ≠ 0 ∧
      (main env).trace.count Event.contextDestroy = 1 := by
  have hy : isFailure (Event.vpi c s) = true := by simp [isFailure, hs]
  have hclean : ∀ e ∈ cleanup, isFailure e = false := by simp [cleanup, isFailure]
  rcases main_shape env with hq | ⟨A, c', s', ht, hqA, _, hret⟩ | ⟨A, pt, src, dst, ht, hqA, _⟩
  · have hm : Event.vpi c s ∈ (main env).trace := by rw [h]; simp
    rw [(hq _ hm).1] at hy
    exact absurd hy (by simp)
  · rw [ht] at h
    obtain ⟨hpre, _, hpost⟩ :=
      split_unique isFailure A cleanup _ (fun e he => (hqA e he).1) hclean pre post _ hy h
    refine ⟨hpost, hret, by decide, ?_⟩
    have hcount : A.count Event.contextDestroy = 0 :=
      List.count_eq_zero.2 (fun hm => (hqA _ hm).2.2 rfl)
    rw [ht, List.count_append, hcount]
    simp [cleanup]
  · have hm : Event.vpi c s ∈ (main env).trace := by rw [h]; simp
    rw [ht] at hm
    simp only [List.mem_append, List.mem_cons] at hm
    rcases hm with (hm | hm) | hm
    · rw [(hqA _ hm).1] at hy
      exact absurd hy (by simp)
    · simp [vidEndHead] at hm
    · simp [cleanup] at hm

/-- Witness of C6: the warp submission of the second pass fails. -/
theorem C6_gpu_failure_aborts_with_cleanup_witness :
    (main (exampleEnv [squareFrame, warpFailFrame])).trace.drop 42 = cleanup ∧
      (main (exampleEnv [squareFrame, warpFailFrame])).ret = some RET_ERR ∧
      RET_ERR ≠ 0 ∧
      (main (exampleEnv [squareFrame, warpFailFrame])).trace.count
        Event.contextDestroy = 1 :=
  C6_gpu_failure_aborts_with_cleanup (exampleEnv [squareFrame, warpFailFrame])
    ((main (exampleEnv [squareFrame, warpFailFrame])).trace.take 41)
    ((main (exampleEnv [squareFrame, warpFailFrame])).trace.drop 42)
    GpuCall.submitPerspectiveWarp 1 (by decide) (by decide)

/-- C7: when a read of the secondary video fails, the pass made no checked
call before it (it consists of the capture, the detection, the copy, the
resolution, the fill and the transform), nothing follows the failed read
but `invid.release` and the clean-up, the context is destroyed exactly once
in the run, and `main` returns `RET_OK`, which is 0. -/
theorem C7_video_end_terminates_with_success (env : Env) (pre post : List Event)
    (h : (main env).trace = pre ++ Event.invidRead false :: post) :
    post = Event.invidRelease :: cleanup ∧
      (main env).ret = some RET_OK ∧ RET_OK = 0 ∧
      (main env).trace.count Event.contextDestroy = 1 ∧
      ∃ pre' pt src dst, pre = pre' ++
        [Event.capRead false, Event.detectMarkers, Event.copyTo,
          Event.getOutPoints RET_OK, Event.fillConvexPoly pt,
          Event.getPerspectiveTransform src dst] := by
  have hy : isVidEnd (Event.invidRead false) = true := by simp [isVidEnd]
  have hm : Event.invidRead false ∈ (main env).trace := by rw [h]; simp
  rcases main_shape env with hq | ⟨A, c', s', ht, hqA, _, _⟩ | ⟨A, pt, src, dst, ht, hqA, hret⟩
  · rw [(hq _ hm).2] at hy
    exact absurd hy (by simp)
  · rw [ht] at hm
    simp only [List.mem_append, List.mem_cons] at hm
    rcases hm with hm | hm | hm
    · rw [(hqA _ hm).2.1] at hy
      exact absurd hy (by simp)
    · simp at hm
    · simp [cleanup] at hm
  · rw [ht] at h
    have hA : ∀ e ∈ A ++ vidEndHead pt src dst, isVidEnd e = false := by
      intro e he
      rcases List.mem_append.1 he with he | he
      · exact (hqA e he).2.1
      · simp [vidEndHead] at he
        rcases he with rfl | rfl | rfl | rfl | rfl | rfl <;> simp [isVidEnd]
    have hC : ∀ e ∈ Event.invidRelease :: cleanup, isVidEnd e = false := by
      simp [cleanup, isVidEnd]
    obtain ⟨hpre, _, hpost⟩ := split_unique isVidEnd _ _ _ hA hC pre post _ hy h
    refine ⟨hpost, hret, rfl, ?_, A, pt, src, dst, by rw [hpre]; rfl⟩
    have hcount : A.count Event.contextDestroy = 0 :=
      List.count_eq_zero.2 (fun hm => (hqA _ hm).2.2 rfl)
    rw [ht, List.count_append, List.count_append, hcount]
    simp [cleanup, vidEndHead]

/-- Witness of C7: the video ends in the second pass. -/
theorem C7_video_end_terminates_with_success_witness :
    (main (exampleEnv [squareFrame, vidEndFrame])).trace.drop 37 =
        Event.invidRelease :: cleanup ∧
      (main (exampleEnv [squareFrame, vidEndFrame])).ret = some RET_OK ∧ RET_OK = 0 ∧
      (main (exampleEnv [squareFrame, vidEndFrame])).trace.count
        Event.contextDestroy = 1 ∧
      ∃ pre' pt src dst, (main (exampleEnv [squareFrame, vidEndFrame])).trace.take 36 =
        pre' ++ [Event.capRead false, Event.detectMarkers, Event.copyTo,
          Event.getOutPoints RET_OK, Event.fillConvexPoly pt,
          Event.getPerspectiveTransform src dst] :=
  C7_video_end_terminates_with_success (exampleEnv [squareFrame, vidEndFrame])
    ((main (exampleEnv [squareFrame, vidEndFrame])).trace.take 36)
    ((main (exampleEnv [squareFrame, vidEndFrame])).trace.drop 37) (by decide)

/-! ## Order of the stream operations -/

/-- C9: in a composite pass (the fill was made) in which the video
delivers a frame and no checked call throws, the calls that issue stream
work, synchronize or read back are exactly: convert, rescale, warp, output
convert, then one synchronization, then lock, export, unlock.  So the four
submissions come in this order with no synchronization between them, the
stream is synchronized once, and the read-back follows it. -/
theorem C9_stream_order_sync_before_readback (capWidth capHeight : Int)
    (w : Wrappers) (f : FrameInput)
    (hfill : ∃ pt, Event.fillConvexPoly pt ∈ (processFrame capWidth capHeight w f).1)
    (hv : f.vidRead = true)
    (hno : (processFrame capWidth capHeight w f).2 ≠ Flow.thrown) :
    (processFrame capWidth capHeight w f).1.filter isStreamOrReadback =
      [Event.vpi GpuCall.submitConvertVid VPI_SUCCESS,
        Event.vpi GpuCall.submitRescale VPI_SUCCESS,
        Event.vpi GpuCall.submitPerspectiveWarp VPI_SUCCESS,
        Event.vpi GpuCall.submitConvertDisp VPI_SUCCESS,
        Event.vpi GpuCall.streamSync VPI_SUCCESS,
        Event.vpi GpuCall.imageLock VPI_SUCCESS,
        Event.vpi GpuCall.imageDataExport VPI_SUCCESS,
        Event.vpi GpuCall.imageUnlock VPI_SUCCESS] := by
  obtain ⟨pt, hpt⟩ := hfill
  by_cases hlen : f.ids.length = 4
  · cases hget : getOutPoints f.corners f.ids ptDstInit with
    | none =>
      rw [processFrame_undefined _ _ _ _ hlen hget] at hpt
      simp at hpt
    | some p =>
      obtain ⟨r, out⟩ := p
      by_cases hr : r = RET_OK
      · subst hr
        by_cases hg : (checkStatus f.status 0 (gpuStage w)).2 = true
        · rw [processFrame_composite _ _ _ _ hlen out hget hv hg]
          obtain ⟨a, b⟩ := w
          cases a <;> cases b <;> simp [gpuStage, isStreamOrReadback]
        · have hg2 : (checkStatus f.status 0 (gpuStage w)).2 = false := by simpa using hg
          rw [processFrame_thrown _ _ _ _ hlen out hget hv hg2] at hno
          exact absurd rfl hno
      · rw [processFrame_incomplete _ _ _ _ hlen r out hget hr] at hpt
        simp at hpt
  · rw [processFrame_other _ _ _ _ hlen] at hpt
    simp only [List.mem_append, List.mem_cons, List.mem_singleton, keyPoll] at hpt
    rcases hpt with ((hp | hp) | hp) | hp
    · simp at hp
    · split_ifs at hp <;> simp at hp
    · simp at hp
    · simp at hp

/-- Witness of C9 on the square detection, with both wrappers already
created. -/
theorem C9_stream_order_sync_before_readback_witness :
    (processFrame 640 480 ⟨true, true⟩ squareFrame).1.filter isStreamOrReadback =
      [Event.vpi GpuCall.submitConvertVid VPI_SUCCESS,
        Event.vpi GpuCall.submitRescale VPI_SUCCESS,
        Event.vpi GpuCall.submitPerspectiveWarp VPI_SUCCESS,
        Event.vpi GpuCall.submitConvertDisp VPI_SUCCESS,
        Event.vpi GpuCall.streamSync VPI_SUCCESS,
        Event.vpi GpuCall.imageLock VPI_SUCCESS,
        Event.vpi GpuCall.imageDataExport VPI_SUCCESS,
        Event.vpi GpuCall.imageUnlock VPI_SUCCESS] :=
  C9_stream_order_sync_before_readback 640 480 ⟨true, true⟩ squareFrame
    ⟨[⟨100, 100⟩, ⟨200, 100⟩, ⟨200, 200⟩, ⟨100, 200⟩], by decide⟩
    (by decide) (by decide)

/-! ## The key poll -/

/-- C8, the code at the failing input: a pass with four detected markers
that are not the identities 0,1,2,3 (identity 0 twice) calls `imshow` and
goes straight to the next capture, without `waitKey`; the following pass,
with no marker, calls `imshow` and then `waitKey(5)`. -/
theorem C8_key_poll_skipped_when_resolution_fails :
    (main (exampleEnv [duplicateFrame, keyFrame])).trace.drop 10 =
      [Event.capRead false, Event.detectMarkers, Event.copyTo,
        Event.getOutPoints RET_ERR, Event.imshow,
        Event.capRead false, Event.detectMarkers, Event.copyTo, Event.imshow,
        Event.waitKey 5 113,
        Event.contextDestroy, Event.capRelease, Event.releaseArgs] := by
  decide

/-! ## The source points of the transform -/

theorem checkStatus_mem (status : Nat → Nat) (l : List GpuCall) (k : Nat) (e : Event)
    (h : e ∈ (checkStatus status k l).1) : ∃ c s, e = Event.vpi c s := by
  induction l generalizing k with
  | nil => simp [checkStatus] at h
  | cons c rest ih =>
    by_cases hs : status k = VPI_SUCCESS
    · simp only [checkStatus, hs, if_true, List.mem_cons] at h
      rcases h with h | h
      · exact ⟨c, _, h⟩
      · exact ih (k + 1) h
    · simp only [checkStatus, hs, if_false, List.mem_singleton] at h
      exact ⟨c, _, h⟩

theorem outPointsLoop_length (corners : List (List Point2f)) (ids : List Int)
    (n k : Nat) (pt : List Point2f) (r : Int) (out : List Point2f)
    (h : outPointsLoop corners ids n k pt = some (r, out)) : out.length = pt.length := by
  induction n generalizing k pt with
  | zero =>
    simp [outPointsLoop] at h
    rw [← h.2]
  | succ n ih =>
    unfold outPointsLoop at h
    split at h
    · simp at h
    · split at h
      · simp at h
        rw [← h.2]
      · split at h
        · simp at h
        · split at h
          · simp at h
          · have := ih _ _ h
            simpa using this

theorem processFrame_transform_mem (capWidth capHeight : Int) (w : Wrappers)
    (f : FrameInput) (src dst : List Point2f)
    (h : Event.getPerspectiveTransform src dst ∈ (processFrame capWidth capHeight w f).1) :
    src = ptSrc capWidth capHeight ∧ f.ids.length = 4 ∧
      getOutPoints f.corners f.ids ptDstInit = some (RET_OK, dst) := by
  by_cases hlen : f.ids.length = 4
  · cases hget : getOutPoints f.corners f.ids ptDstInit with
    | none =>
      rw [processFrame_undefined _ _ _ _ hlen hget] at h
      simp at h
    | some p =>
      obtain ⟨r, out⟩ := p
      by_cases hr : r = RET_OK
      · subst hr
        by_cases hv : f.vidRead = true
        · by_cases hg : (checkStatus f.status 0 (gpuStage w)).2 = true
          · rw [processFrame_composite _ _ _ _ hlen out hget hv hg] at h
            simp at h
            exact ⟨h.1, hlen, by rw [h.2]⟩
          · have hg2 : (checkStatus f.status 0 (gpuStage w)).2 = false := by simpa using hg
            rw [processFrame_thrown _ _ _ _ hlen out hget hv hg2] at h
            simp only [List.mem_append, List.mem_cons] at h
            rcases h with h | h
            · simp at h
              exact ⟨h.1, hlen, by rw [h.2]⟩
            · obtain ⟨c, s, hc⟩ := checkStatus_mem _ _ _ _ h
              simp at hc
        · have hv2 : f.vidRead = false := by simpa using hv
          rw [processFrame_vidEnd _ _ _ _ hlen out hget hv2] at h
          simp at h
          exact ⟨h.1, hlen, by rw [h.2]⟩
      · rw [processFrame_incomplete _ _ _ _ hlen r out hget hr] at h
        simp at h
  · rw [processFrame_other _ _ _ _ hlen] at h
    simp only [List.mem_append, List.mem_cons, List.mem_singleton, keyPoll] at h
    rcases h with ((hp | hp) | hp) | hp
    · simp at hp
    · split_ifs at hp <;> simp at hp
    · simp at hp
    · simp at hp

theorem mainLoop_transform_mem (capWidth capHeight : Int) (fs : List FrameInput)
    (w : Wrappers) (src dst : List Point2f)
    (h : Event.getPerspectiveTransform src dst ∈ (mainLoop capWidth capHeight w fs).1) :
    src = ptSrc capWidth capHeight ∧ ∃ f ∈ fs, f.ids.length = 4 ∧
      getOutPoints f.corners f.ids ptDstInit = some (RET_OK, dst) := by
  induction fs generalizing w with
  | nil => simp [mainLoop] at h
  | cons f rest ih =>
    by_cases hl : f.loopFlag = true
    swap
    · simp [mainLoop, hl] at h
    by_cases hb : f.blank = true
    · simp [mainLoop, hl, hb] at h
    have hpm := processFrame_transform_mem capWidth capHeight w f src dst
    rcases hpf : processFrame capWidth capHeight w f with ⟨t, fl⟩
    rw [hpf] at hpm
    simp only at hpm
    have here : Event.getPerspectiveTransform src dst ∈ t →
        src = ptSrc capWidth capHeight ∧ ∃ g ∈ f :: rest, g.ids.length = 4 ∧
          getOutPoints g.corners g.ids ptDstInit = some (RET_OK, dst) := fun ht =>
      ⟨(hpm ht).1, f, by simp, (hpm ht).2⟩
    cases fl with
    | next w' =>
      simp [mainLoop, hl, hb, hpf] at h
      rcases h with h | h
      · exact here h
      · obtain ⟨h1, g, hg, h2⟩ := ih w' h
        exact ⟨h1, g, by simp [hg], h2⟩
    | brk =>
      simp [mainLoop, hl, hb, hpf] at h
      exact here h
    | thrown =>
      simp [mainLoop, hl, hb, hpf] at h
      exact here h
    | undefined =>
      simp [mainLoop, hl, hb, hpf] at h
      exact here h

theorem tryBody_transform_mem (env : Env) (src dst : List Point2f)
    (h : Event.getPerspectiveTransform src dst ∈ (tryBody env).1) :
    Event.getPerspectiveTransform src dst ∈
      (mainLoop env.capWidth env.capHeight ⟨false, false⟩ env.frames).1 := by
  by_cases hc : env.cameraOpened = true
  swap
  · simp [tryBody, hc] at h
  by_cases hv : env.videoOpened = true
  swap
  · simp [tryBody, hc, hv] at h
  have hsetup : Event.getPerspectiveTransform src dst ∉
      (checkStatus env.setupStatus 0 (setupStage env)).1 := fun hm => by
    obtain ⟨c, s, hcs⟩ := checkStatus_mem _ _ _ _ hm
    simp at hcs
  by_cases hg : (checkStatus env.setupStatus 0 (setupStage env)).2 = true
  · by_cases hs : env.signalOk = true
    · simpa [tryBody, hc, hv, hg, hs, hsetup] using h
    · simp [tryBody, hc, hv, hg, hs, hsetup] at h
  · simp [tryBody, hc, hv, hg, hsetup] at h

/-- C4, as stated, fails: with a camera of 640 by 480 and a video of 1920
by 1080 the source points handed to the transform are not the corners of
the video's rectangle. -/
theorem C4_counterexample_video_size :
    ¬ ∀ src dst, Event.getPerspectiveTransform src dst ∈
          (main (exampleEnv [squareFrame])).trace →
        src = [⟨0, 0⟩, ⟨((exampleEnv [squareFrame]).vidWidth : ℚ), 0⟩,
          ⟨((exampleEnv [squareFrame]).vidWidth : ℚ),
            ((exampleEnv [squareFrame]).vidHeight : ℚ)⟩,
          ⟨0, ((exampleEnv [squareFrame]).vidHeight : ℚ)⟩] := by
  intro h
  have h1 := h [⟨0, 0⟩, ⟨640, 0⟩, ⟨640, 480⟩, ⟨0, 480⟩]
    [⟨100, 100⟩, ⟨200, 100⟩, ⟨200, 200⟩, ⟨100, 200⟩] (by decide)
  revert h1
  decide

/-- C4, amended: in every composite pass the four source points handed to
the transform are (0,0), (W,0), (W,H), (0,H), in this order, where W and H
are the width and height of the camera frame as read back from the camera
(the size to which the video frame is rescaled before the warp), and the
destination argument is the array of the four vertices 0,1,2,3 that
`getOutPoints` filled for that frame. -/
theorem C4_source_points_are_capture_rectangle (env : Env) (src dst : List Point2f)
    (h : Event.getPerspectiveTransform src dst ∈ (main env).trace) :
    src = [⟨0, 0⟩, ⟨(env.capWidth : ℚ), 0⟩,
        ⟨(env.capWidth : ℚ), (env.capHeight : ℚ)⟩, ⟨0, (env.capHeight : ℚ)⟩] ∧
      dst.length = 4 ∧
      ∃ f ∈ env.frames, f.ids.length = 4 ∧
        getOutPoints f.corners f.ids ptDstInit = some (RET_OK, dst) := by
  have hloop : Event.getPerspectiveTransform src dst ∈
      (mainLoop env.capWidth env.capHeight ⟨false, false⟩ env.frames).1 := by
    apply tryBody_transform_mem
    by_cases ha : env.argsErr = true
    · simp [main, ha] at h
    rcases htb : tryBody env with ⟨t, e⟩
    cases e <;> simp [main, ha, htb, cleanup] at h <;> exact h
  obtain ⟨hsrc, f, hf, hlen, hget⟩ := mainLoop_transform_mem _ _ _ _ _ _ hloop
  refine ⟨hsrc, ?_, f, hf, hlen, hget⟩
  have := outPointsLoop_length _ _ _ _ _ _ _ hget
  simpa [ptDstInit] using this

/-- Witness of amended C4 on the run with the square detection. -/
theorem C4_source_points_are_capture_rectangle_witness :
    ([⟨0, 0⟩, ⟨640, 0⟩, ⟨640, 480⟩, ⟨0, 480⟩] : List Point2f) =
        [⟨0, 0⟩, ⟨((exampleEnv [squareFrame]).capWidth : ℚ), 0⟩,
          ⟨((exampleEnv [squareFrame]).capWidth : ℚ),
            ((exampleEnv [squareFrame]).capHeight : ℚ)⟩,
          ⟨0, ((exampleEnv [squareFrame]).capHeight : ℚ)⟩] ∧
      ([⟨100, 100⟩, ⟨200, 100⟩, ⟨200, 200⟩, ⟨100, 200⟩] : List Point2f).length = 4 ∧
      ∃ f ∈ (exampleEnv [squareFrame]).frames, f.ids.length = 4 ∧
        getOutPoints f.corners f.ids ptDstInit =
          some (RET_OK, [⟨100, 100⟩, ⟨200, 100⟩, ⟨200, 200⟩, ⟨100, 200⟩]) :=
  C4_source_points_are_capture_rectangle (exampleEnv [squareFrame])
    [⟨0, 0⟩, ⟨640, 0⟩, ⟨640, 480⟩, ⟨0, 480⟩]
    [⟨100, 100⟩, ⟨200, 100⟩, ⟨200, 200⟩, ⟨100, 200⟩] (by decide)

/-- Witness of C1 on the square detection: a composite step runs, and the
four identities are a permutation of 0,1,2,3. -/
theorem C1_composite_iff_four_ids_permutation_witness :
    (∃ e ∈ (processFrame 640 480 ⟨false, false⟩ squareFrame).1, isCompositeStep e = true) ∧
      squareFrame.ids.length = 4 ∧ squareFrame.ids.Perm [0, 1, 2, 3] :=
  have h := (C1_composite_iff_four_ids_permutation 640 480 ⟨false, false⟩ squareFrame
    ⟨by decide, by decide⟩).2.2.1
  ⟨h.2 ⟨by decide, by decide⟩, by decide, by decide⟩

end PerspectiveWarp
